import Mathlib

/-!
# Verification of the scout delegation-and-streaming substrate

Shallow embedding of the core of `scout-backend`: the shared artifact
registry (`agents/shared_storage.py` with its lock-guarded check-then-append
users), the report combiner (`agents/combine_reports.py` /
`agents/synthesis_agent.py`), the Perplexity call wrapper with timeout and
retry (`agents/market_agent.py`, `_call_perplexity_api`), the event queue
singleton (`utils/event_queue.py`), and the event emission of
`execute_research_plan` (`agents/planner_agent.py`).
-/

namespace Scout

/-! ## Artifact registry (`agents/shared_storage.py` and its users)

The registry is the module-level list `report_filepaths_storage`, guarded by
`storage_lock`.  Every registration site in the source is the same
check-then-append performed while holding the lock:

    with storage_lock:
        if file_path not in report_filepaths_storage:
            report_filepaths_storage.append(file_path)

(`competition_agent.save_competition_report`,
`synthesis_agent.save_final_report`, `combine_reports`, `price_agent`,
`legal_agent`).  Because the lock serializes the check-then-append, a run is
a sequence of atomic `register` steps, modelled as a fold. -/

/-- One lock-guarded registration: append `p` unless already present. -/
def register (l : List String) (p : String) : List String :=
  if p ∈ l then l else l ++ [p]

/-- The registry produced by a sequence of registrations starting from `l`. -/
def registerAll (l : List String) (ps : List String) : List String :=
  ps.foldl register l

/-- Modelled from the spec: "the final `list()` contains each distinct `p`
exactly once, in first-registration order" — keep the first occurrence of
each path, dropping later duplicates.  Used only as the specification side
of the refinement proof for the registry. -/
def firstRegistrationOrder : List String → List String
  | [] => []
  | p :: ps => p :: firstRegistrationOrder (ps.filter (fun q => q ≠ p))
termination_by l => l.length
decreasing_by
  simp only [List.length_cons]
  exact Nat.lt_succ_of_le (List.length_filter_le _ _)

/-! ## Report combiner (`agents/combine_reports.py`, duplicated in
`agents/synthesis_agent.py` as the `combine_reports` tool)

    combined_content = ""
    for path in filepaths:
        if os.path.exists(path):
            with open(path, ...) as f:
                combined_content += "\n\n---\n\n" + f.read()
        else:
            combined_content += "\n\n---\n\n# Missing file: " + path + "\n"
    ...
    with storage_lock:
        with open(output_path, mode w, ...) as out:
            out.write(combined_content)
        if output_path not in report_filepaths_storage:
            report_filepaths_storage.append(output_path)
    return output_path

The filesystem is modelled as a partial map from paths to file contents;
`os.path.exists path` is `fs path ≠ none`, reading gives the stored content,
and opening with truncating write mode replaces the stored content entirely. -/

/-- The filesystem: each existing path maps to its full textual content. -/
def FileSystem : Type := String → Option String

/-- The section appended to the combined document for one input path:
delimiter plus the file's content when it exists, else the placeholder
naming the missing path. -/
def sectionFor (fs : FileSystem) (path : String) : String :=
  match fs path with
  | some content => "\n\n---\n\n" ++ content
  | none => "\n\n---\n\n# Missing file: " ++ path ++ "\n"

/-- The `combined_content` accumulator loop of `combine_reports`. -/
def combinedContent (fs : FileSystem) (filepaths : List String) : String :=
  filepaths.foldl (fun acc path => acc ++ sectionFor fs path) ""

/-- Function `combine_reports`: build the combined document, overwrite `output_path`
with it (truncating write mode), register `output_path` if absent, return
`output_path`.  Result: the new filesystem, the new registry, and the
returned path. -/
def combine_reports (fs : FileSystem) (filepaths : List String)
    (output_path : String) (registry : List String) :
    FileSystem × List String × String :=
  let combined := combinedContent fs filepaths
  (fun q => if q = output_path then some combined else fs q,
   register registry output_path,
   output_path)

/-! ## Outbound call wrapper (`agents/market_agent.py`, `_call_perplexity_api`)

The wrapper runs `for attempt in range(max_retries + 1)`, issues the HTTP
request with a hard per-attempt timeout, classifies the failure, and either
retries (after `time.sleep`) or returns an error string; on success it
parses the JSON body and appends a deduplicated, capped source list.

Each attempt's interaction with the network is captured by an
`AttemptOutcome` (indexed by attempt number); the wrapper itself is then a
deterministic function of that and of the parsed body.  Sleeps are recorded
as a list of delays (in the source's time units: seconds). -/

/-- One citation entry of the JSON response: either a direct URL string or
an object whose `url` field may be absent (Python truthiness: an absent or
empty `url` is skipped). -/
inductive Citation where
  | str (url : String)
  | obj (url : Option String)
deriving DecidableEq, Repr

/-- The URL contributed by one citation, following the source:
a string citation is taken as-is; a dict citation contributes its `url`
field when that field is truthy (the `citation.get` lookup of `url`). -/
def Citation.urlOf : Citation → Option String
  | .str u => some u
  | .obj none => none
  | .obj (some u) => if u = "" then none else some u

/-- One `search_results` entry, reduced to its optional `url` field
(the `result.get` lookup of `url`, truthy check). -/
def searchResultUrl (u : Option String) : Option String :=
  match u with
  | none => none
  | some s => if s = "" then none else some s

/-- The `all_urls` collection: first collect URLs from `citations`; only if that yields
nothing and `search_results` is non-empty, collect URLs from
`search_results`. -/
def allUrls (citations : List Citation) (searchResults : List (Option String)) :
    List String :=
  let fromCitations := citations.filterMap Citation.urlOf
  if fromCitations = [] ∧ searchResults ≠ [] then
    searchResults.filterMap searchResultUrl
  else fromCitations

/-- The `unique_urls` loop: drop duplicates while preserving first-seen order
(the source loops over all_urls appending each url not already present)
— the same check-then-append as the registry's `register`. -/
def uniqueUrls (urls : List String) : List String :=
  urls.foldl register []

/-- The formatted source block: the sources header followed by one
bulleted line per URL, newline-joined. -/
def formattedCitations (urls : List String) : String :=
  "\n\n**Sources:**\n" ++ String.intercalate "\n" (urls.map (fun u => "- " ++ u))

/-- The decoded body of a successful (2xx) HTTP response. -/
inductive Body where
  /-- `response.json()` raised `ValueError`; `text` is the raw body. -/
  | invalidJson (text : String)
  /-- decoded JSON is not an object. -/
  | notDict
  /-- decoded object: each element of `choices` is its
  `message.get("content")`; plus `citations` and `search_results`. -/
  | dict (choices : List (Option String)) (citations : List Citation)
      (searchResults : List (Option String))
deriving DecidableEq, Repr

/-- The body-processing path of a successful attempt (everything from
`response.json()` to the `return`). -/
def parseBody : Body → String
  | .invalidJson text =>
      "Error: Invalid JSON response from API. Response: " ++ text ++ "..."
  | .notDict => "Error: Unexpected response format from API"
  | .dict choices citations searchResults =>
      match choices with
      | [] => "Error: No content returned from API"
      | c0 :: _ =>
        let content := c0.getD "No content found."
        let urls := allUrls citations searchResults
        if urls ≠ [] then
          content ++ formattedCitations ((uniqueUrls urls).take 5)
        else content

/-- What the underlying HTTP layer does on one attempt. -/
inductive AttemptOutcome where
  /-- `future.result` raised `TimeoutError`. -/
  | timeout
  /-- `raise_for_status` raised `HTTPError` carrying a response with this
  status code. -/
  | httpError (status : Nat)
  /-- `HTTPError` without a usable response object. -/
  | httpErrorNoResponse (msg : String)
  /-- any other `requests.exceptions.RequestException`. -/
  | requestException (msg : String)
  /-- any other exception. -/
  | unexpectedException (msg : String)
  /-- the request returned 2xx with this body. -/
  | success (body : Body)
deriving DecidableEq, Repr

/-- Result of one call: the returned string, the number of attempts made,
and the list of `time.sleep` delays performed, in order. -/
structure CallTrace where
  result : String
  attempts : Nat
  delays : List Nat
deriving DecidableEq, Repr

/-- The retry loop of `_call_perplexity_api`.  `attempt` is the current
0-based attempt index and `remaining = max_retries - attempt` counts the
retries still allowed, so the source's guard `attempt < max_retries` is
`remaining ≠ 0`.  Each branch mirrors one `except`/`return` site of the
source; a retry sleeps, recurses with `attempt + 1`, and is counted in
`attempts`/`delays`. -/
def runAttempts (outcome : Nat → AttemptOutcome) (timeout : Nat) :
    Nat → Nat → CallTrace
  | attempt, remaining =>
    match outcome attempt with
    | .timeout =>
      match remaining with
      | r + 1 =>
        let t := runAttempts outcome timeout (attempt + 1) r
        ⟨t.result, t.attempts + 1, 2 ^ attempt :: t.delays⟩
      | 0 =>
        ⟨"Error: Request timed out after " ++ toString timeout
          ++ " seconds. Please try again with a simpler query.", 1, []⟩
    | .success body => ⟨parseBody body, 1, []⟩
    | .httpError status =>
      if status = 429 then
        match remaining with
        | r + 1 =>
          let t := runAttempts outcome timeout (attempt + 1) r
          ⟨t.result, t.attempts + 1, 2 ^ attempt :: t.delays⟩
        | 0 => ⟨"Error: Rate limit exceeded. Please try again later.", 1, []⟩
      else if status = 401 then
        ⟨"Error: Invalid API key. Please check your PERPLEXITY_API_KEY.", 1, []⟩
      else if status = 400 then
        ⟨"Error: Bad request to API. Check your query format.", 1, []⟩
      else
        match remaining with
        | r + 1 =>
          let t := runAttempts outcome timeout (attempt + 1) r
          ⟨t.result, t.attempts + 1, 1 :: t.delays⟩
        | 0 =>
          ⟨"Error: HTTP error " ++ toString status ++ ". Please try again.", 1, []⟩
    | .httpErrorNoResponse msg =>
        ⟨"Error: HTTP error occurred. " ++ msg, 1, []⟩
    | .requestException msg =>
      match remaining with
      | r + 1 =>
        let t := runAttempts outcome timeout (attempt + 1) r
        ⟨t.result, t.attempts + 1, 2 ^ attempt :: t.delays⟩
      | 0 => ⟨"Error: Network request failed. " ++ msg, 1, []⟩
    | .unexpectedException msg =>
        ⟨"Error: Unexpected error occurred. " ++ msg, 1, []⟩

/-- Function `_call_perplexity_api(query, timeout, max_retries)`: the credential
check before the loop, then the loop starting at attempt 0 with
`max_retries` retries allowed.  `apiKey` is `os.getenv("PERPLEXITY_API_KEY")`
(`none` when unset; the empty string is falsy too). -/
def callPerplexityApi (apiKey : Option String) (outcome : Nat → AttemptOutcome)
    (timeout : Nat) (maxRetries : Nat) : CallTrace :=
  match apiKey with
  | none => ⟨"Error: PERPLEXITY_API_KEY is not set in the environment.", 0, []⟩
  | some k =>
    if k = "" then
      ⟨"Error: PERPLEXITY_API_KEY is not set in the environment.", 0, []⟩
    else runAttempts outcome timeout 0 maxRetries

/-- The exponential-backoff delays `2 ^ attempt, 2 ^ (attempt + 1), …` for
`r` consecutive retries starting at attempt index `attempt` (specification
helper for describing the loop's sleep sequence). -/
def expDelays (attempt : Nat) : Nat → List Nat
  | 0 => []
  | r + 1 => 2 ^ attempt :: expDelays (attempt + 1) r

/-! ## Event queue singleton (`utils/event_queue.py`)

    class EventQueue:
        _instance = None
        _queue = None
        def __new__(cls):
            if cls._instance is None:
                cls._instance = super(EventQueue, cls).__new__(cls)
                cls._queue = asyncio.Queue()
            return cls._instance

`_instance` and `_queue` are class attributes, so every constructed handle
is the same object and every handle's `self._queue` is the one class-level
queue.  `asyncio.Queue()` has no `maxsize`, so it is unbounded and
`put_nowait` never raises `QueueFull`.  The class-level state is modelled
as the optional id of the allocated instance plus the FIFO contents of the
one queue; events are opaque (`Nat`). -/

/-- Opaque queued event payloads. -/
abbrev QEvent := Nat

/-- The class-level state of `EventQueue`: `_instance` (id of the allocated
instance, if any) and the contents of `_queue` (meaningful once
allocated). -/
structure EQState where
  inst : Option Nat
  queue : List QEvent
deriving DecidableEq, Repr

namespace EventQueue

/-- Constructor call `EventQueue()` — `__new__`: allocate the instance and a fresh empty
queue on first call, return the already-allocated instance afterwards.
Returns the id of the instance the expression evaluates to. -/
def new (s : EQState) : Nat × EQState :=
  match s.inst with
  | some i => (i, s)
  | none => (0, ⟨some 0, []⟩)

/-- Methods `put_nowait` / `put`: enqueue at the tail of the shared queue (the
queue is unbounded, so the `QueueFull` branch is unreachable and both
methods enqueue unconditionally).  The handle the method is called on is
irrelevant because `self._queue` resolves to the class attribute. -/
def put (s : EQState) (e : QEvent) : EQState :=
  { s with queue := s.queue ++ [e] }

/-- Method `get`: `await self._queue.get()` — return the FIFO head when the queue
is non-empty; on an empty queue the coroutine suspends until a `put`
occurs, modelled as `none` (no value is returned).  The method takes no
timeout parameter. -/
def get (s : EQState) : Option (QEvent × EQState) :=
  match s.queue with
  | [] => none
  | e :: rest => some (e, { s with queue := rest })

/-- A sequence of `put`s. -/
def putAll (s : EQState) (es : List QEvent) : EQState :=
  es.foldl put s

end EventQueue

/-! ## Worker entry points under missing credentials
(`agents/competition_agent.py`, `agents/market_agent.py`)

`run_competition_agent(tasks)` checks `len(tasks) != 2` (yielding an error
dict), then evaluates `CompetitionAgent()`, whose `__init__` starts with

    if not os.getenv("GOOGLE_PLACES_API_KEY"):
        raise ValueError("GOOGLE_PLACES_API_KEY environment variable not set.")

and `run_competition_agent` wraps this in no `try`, so the `ValueError`
propagates to the caller (modelled as `Except.error`).  Only with the key
configured does it yield the agent's event stream (the LLM-driven stream is
external and passed in as a parameter).

`run_market_agent(tasks)` checks the task count, then calls
`get_market_agent_instance()` inside `try`: `MarketAgent.__init__` raises
`ValueError("PERPLEXITY_API_KEY environment variable not set.")` when the
key is missing, and the `except` returns
`f"Error: Failed to run market analysis. {str(e)}"`. -/

/-- The environment variables the workers read. -/
structure Env where
  googlePlacesApiKey : Option String
  perplexityApiKey : Option String
deriving DecidableEq, Repr

/-- Python truthiness of `os.getenv(name)`: set and non-empty. -/
def envSet : Option String → Bool
  | none => false
  | some s => s ≠ ""

/-- One item yielded by the competition agent's async generator. -/
inductive AgentYield where
  /-- `yield {"error": msg}` for a malformed task list. -/
  | errorDict (msg : String)
  /-- an opaque event of the LLM agent's stream. -/
  | streamEvent (n : Nat)
deriving DecidableEq, Repr

/-- Function `run_competition_agent(tasks)`: `.ok items` models the generator
completing having yielded `items`; `.error msg` models an exception
(`ValueError` from `CompetitionAgent.__init__`) escaping to the caller.
`stream` is the LLM agent's event stream (external collaborator). -/
def run_competition_agent (env : Env) (tasks : List String)
    (stream : List Nat) : Except String (List AgentYield) :=
  if tasks.length ≠ 2 then
    .ok [.errorDict
      "The Competition Agent requires exactly two tasks: a business type and an area."]
  else if envSet env.googlePlacesApiKey then
    .ok (stream.map .streamEvent)
  else
    .error "GOOGLE_PLACES_API_KEY environment variable not set."

/-- Function `run_market_agent(tasks)`: always returns a string to its caller;
`agentResult` is the LLM agent's answer in the configured case (external
collaborator). -/
def run_market_agent (env : Env) (tasks : List String)
    (agentResult : String) : String :=
  if tasks.length ≠ 2 then
    "Error: The Market Agent requires exactly two tasks: a business type and an area."
  else if envSet env.perplexityApiKey then
    agentResult
  else
    "Error: Failed to run market analysis. PERPLEXITY_API_KEY environment variable not set."

/-! ## Event emission of `execute_research_plan` (`agents/planner_agent.py`)
and `update_work_progress` (`agents/competition_agent.py`,
`agents/synthesis_agent.py`, `agents/price_agent.py`, `agents/legal_agent.py`)

`execute_research_plan` generates `trace_id = str(uuid.uuid4())` once; for
each category with a non-empty task list, `stream_and_capture_report`
allocates a fresh `span_id` and wraps the worker's stream between a
`thought_start` and a `thought_end` event carrying that shared `trace_id`.
The workers' own progress events are produced by their
`update_work_progress` tool, which builds each `StreamEvent` with

    traceId=str(uuid.uuid4()), spanId=str(uuid.uuid4()), parentSpanId=planner

— a *fresh* traceId per event, not the plan's shared trace id.

`uuid.uuid4()` is modelled as a counter supply: each draw returns the
current counter value, which is fresh (distinct from every previously drawn
id).  A worker's run is abstracted by the number `k` of times the LLM agent
invokes `update_work_progress`. -/

/-- The fields of a `StreamEvent` relevant here (ids drawn from the uuid
supply are `Nat`s). -/
structure MEvent where
  agentName : String
  eventType : String
  traceId : Nat
  spanId : Nat
  parentSpanId : Option String
deriving DecidableEq, Repr

/-- Tool `update_work_progress`: build and enqueue one `tool_call` event with a
freshly drawn `traceId` and `spanId` and `parentSpanId="planner"`.  Returns
the event and the advanced uuid counter. -/
def update_work_progress_event (agentName : String) (ctr : Nat) : MEvent × Nat :=
  (⟨agentName, "tool_call", ctr, ctr + 1, some "planner"⟩, ctr + 2)

/-- The `k` progress events a worker's agent emits during its run, each via
`update_work_progress_event`. -/
def workerProgressEvents (agentName : String) : Nat → Nat → List MEvent × Nat
  | 0, ctr => ([], ctr)
  | k + 1, ctr =>
    let (e, c1) := update_work_progress_event agentName ctr
    let (es, c2) := workerProgressEvents agentName k c1
    (e :: es, c2)

/-- Helper `stream_and_capture_report`: allocate `span_id = str(uuid.uuid4())`,
emit `thought_start` with the shared `traceId`, run the worker (which emits
its progress events), emit `thought_end` with the same `traceId` and
`spanId`. -/
def stream_and_capture_report (traceId : Nat) (agentName : String) (k : Nat)
    (ctr : Nat) : List MEvent × Nat :=
  let spanId := ctr
  let c1 := ctr + 1
  let startEvent : MEvent :=
    ⟨agentName, "thought_start", traceId, spanId, some "planner"⟩
  let (workerEvents, c2) := workerProgressEvents agentName k c1
  let endEvent : MEvent :=
    ⟨agentName, "thought_end", traceId, spanId, some "planner"⟩
  (startEvent :: workerEvents ++ [endEvent], c2)

/-- The per-category dispatch loop: each entry of `todo` is a category's
agent name, its task list, and the number of progress events its run
emits; a category is dispatched only when its task list is non-empty. -/
def runCategories (traceId : Nat) :
    List (String × List String × Nat) → Nat → List MEvent × Nat
  | [], ctr => ([], ctr)
  | (agentName, tasks, k) :: rest, ctr =>
    if tasks = [] then runCategories traceId rest ctr
    else
      let (es, c1) := stream_and_capture_report traceId agentName k ctr
      let (es2, c2) := runCategories traceId rest c1
      (es ++ es2, c2)

/-- Tool `execute_research_plan`: draw the invocation's shared `trace_id`, then
dispatch every non-empty category.  Returns the shared trace id, the events
enqueued during the plan (in order), and the final uuid counter. -/
def execute_research_plan (todo : List (String × List String × Nat))
    (ctr : Nat) : Nat × List MEvent × Nat :=
  let traceId := ctr
  let (events, c1) := runCategories traceId todo (ctr + 1)
  (traceId, events, c1)

/-! ## Lemmas -/

theorem firstRegistrationOrder_nil : firstRegistrationOrder [] = [] := by
  rw [firstRegistrationOrder]

theorem firstRegistrationOrder_cons (p : String) (ps : List String) :
    firstRegistrationOrder (p :: ps)
      = p :: firstRegistrationOrder (ps.filter (fun q => q ≠ p)) := by
  rw [firstRegistrationOrder]

theorem mem_firstRegistrationOrder (q : String) :
    ∀ (l : List String), q ∈ firstRegistrationOrder l ↔ q ∈ l
  | [] => by rw [firstRegistrationOrder_nil]
  | p :: ps => by
    rw [firstRegistrationOrder_cons]
    by_cases hq : q = p
    · subst hq; simp
    · have := mem_firstRegistrationOrder q (ps.filter (fun r => r ≠ p))
      simp only [List.mem_cons, this, List.mem_filter, ne_eq, decide_eq_true_eq]
      constructor
      · rintro (h | ⟨h, -⟩)
        · exact absurd h hq
        · exact Or.inr h
      · rintro (h | h)
        · exact absurd h hq
        · exact Or.inr ⟨h, hq⟩
termination_by l => l.length
decreasing_by
  simp only [List.length_cons]
  exact Nat.lt_succ_of_le (List.length_filter_le _ _)

theorem nodup_firstRegistrationOrder :
    ∀ (l : List String), (firstRegistrationOrder l).Nodup
  | [] => by rw [firstRegistrationOrder_nil]; exact List.nodup_nil
  | p :: ps => by
    rw [firstRegistrationOrder_cons]
    refine List.nodup_cons.2 ⟨?_, nodup_firstRegistrationOrder _⟩
    intro hmem
    have hmem' := (mem_firstRegistrationOrder p _).1 hmem
    rw [List.mem_filter] at hmem'
    have hne : (decide (p ≠ p)) = true := hmem'.2
    simp at hne
termination_by l => l.length
decreasing_by
  simp only [List.length_cons]
  exact Nat.lt_succ_of_le (List.length_filter_le _ _)

theorem firstRegistrationOrder_sublist :
    ∀ (l : List String), (firstRegistrationOrder l).Sublist l
  | [] => by rw [firstRegistrationOrder_nil]
  | p :: ps => by
    rw [firstRegistrationOrder_cons]
    refine List.Sublist.cons₂ p ?_
    exact (firstRegistrationOrder_sublist (ps.filter (fun q => q ≠ p))).trans
      (List.filter_sublist ps)
termination_by l => l.length
decreasing_by
  simp only [List.length_cons]
  exact Nat.lt_succ_of_le (List.length_filter_le _ _)

theorem register_mem (l : List String) (p : String) (h : p ∈ l) :
    register l p = l := by
  simp [register, h]

/-- Fold characterization: registering a sequence on top of `l` appends the
first occurrences of the paths not already in `l`. -/
theorem registerAll_eq (ps : List String) :
    ∀ (l : List String),
      registerAll l ps = l ++ firstRegistrationOrder (ps.filter (fun q => q ∉ l)) := by
  induction ps with
  | nil => intro l; simp [registerAll, firstRegistrationOrder_nil]
  | cons p ps ih =>
    intro l
    by_cases hp : p ∈ l
    · have hreg : register l p = l := register_mem l p hp
      have hfilter : (p :: ps).filter (fun q => q ∉ l) = ps.filter (fun q => q ∉ l) := by
        simp [List.filter_cons, hp]
      calc registerAll l (p :: ps)
          = registerAll (register l p) ps := rfl
        _ = registerAll l ps := by rw [hreg]
        _ = l ++ firstRegistrationOrder (ps.filter (fun q => q ∉ l)) := ih l
        _ = l ++ firstRegistrationOrder ((p :: ps).filter (fun q => q ∉ l)) := by
              rw [hfilter]
    · have hreg : register l p = l ++ [p] := by simp [register, hp]
      have hfilter : (p :: ps).filter (fun q => q ∉ l)
          = p :: ps.filter (fun q => q ∉ l) := by
        simp [List.filter_cons, hp]
      have hff : (ps.filter (fun q => q ∉ l)).filter (fun q => q ≠ p)
          = ps.filter (fun q => q ∉ l ++ [p]) := by
        rw [List.filter_filter]
        apply List.filter_congr
        intro x _
        simp only [ne_eq, decide_eq_true_eq, Bool.and_eq_true, List.mem_append,
          List.mem_singleton, decide_not]
        by_cases hxl : x ∈ l <;> by_cases hxp : x = p <;>
          simp [hxl, hxp]
      calc registerAll l (p :: ps)
          = registerAll (register l p) ps := rfl
        _ = registerAll (l ++ [p]) ps := by rw [hreg]
        _ = (l ++ [p]) ++ firstRegistrationOrder (ps.filter (fun q => q ∉ l ++ [p])) :=
              ih (l ++ [p])
        _ = l ++ (p :: firstRegistrationOrder
              ((ps.filter (fun q => q ∉ l)).filter (fun q => q ≠ p))) := by
              rw [hff]; simp
        _ = l ++ firstRegistrationOrder ((p :: ps).filter (fun q => q ∉ l)) := by
              rw [hfilter, firstRegistrationOrder_cons]

theorem registerAll_nil_eq (ps : List String) :
    registerAll [] ps = firstRegistrationOrder ps := by
  have h := registerAll_eq ps []
  simpa using h

theorem combinedContent_acc (fs : FileSystem) (filepaths : List String) :
    ∀ acc : String,
      filepaths.foldl (fun a path => a ++ sectionFor fs path) acc
        = acc ++ combinedContent fs filepaths := by
  induction filepaths with
  | nil => intro acc; simp [combinedContent]
  | cons p ps ih =>
    intro acc
    have h1 := ih (acc ++ sectionFor fs p)
    have h2 := ih ("" ++ sectionFor fs p)
    simp only [List.foldl_cons, combinedContent] at *
    rw [h1, h2]
    simp [String.append_assoc]

theorem combinedContent_cons (fs : FileSystem) (p : String) (ps : List String) :
    combinedContent fs (p :: ps) = sectionFor fs p ++ combinedContent fs ps := by
  have h := combinedContent_acc fs ps ("" ++ sectionFor fs p)
  simp only [combinedContent, List.foldl_cons]
  rw [h]
  simp [combinedContent]

/-- Every input path's section occurs inside the combined document. -/
theorem sectionFor_occurs (fs : FileSystem) (p : String) :
    ∀ (filepaths : List String), p ∈ filepaths →
      ∃ pre post, combinedContent fs filepaths = pre ++ sectionFor fs p ++ post := by
  intro filepaths
  induction filepaths with
  | nil => intro h; cases h
  | cons q qs ih =>
    intro hmem
    rw [combinedContent_cons]
    rcases List.mem_cons.1 hmem with h | h
    · subst h
      exact ⟨"", combinedContent fs qs, by simp⟩
    · obtain ⟨pre, post, hpp⟩ := ih h
      refine ⟨sectionFor fs q ++ pre, post, ?_⟩
      rw [hpp]
      simp [String.append_assoc]

/-- A constant stream of HTTP errors with a non-{429, 401, 400} status is
retried until the retry budget is exhausted, sleeping 1 second before each
retry. -/
theorem runAttempts_httpError_const (s : Nat) (t : Nat)
    (h429 : s ≠ 429) (h401 : s ≠ 401) (h400 : s ≠ 400) :
    ∀ (r a : Nat),
      runAttempts (fun _ => .httpError s) t a r
        = ⟨"Error: HTTP error " ++ toString s ++ ". Please try again.",
           r + 1, List.replicate r 1⟩ := by
  intro r
  induction r with
  | zero => intro a; simp [runAttempts, h429, h401, h400]
  | succ n ih =>
    intro a
    simp [runAttempts, h429, h401, h400, ih (a + 1), List.replicate_succ]

/-- A constant stream of non-HTTP transport errors is retried until the
retry budget is exhausted, with exponential backoff delays. -/
theorem runAttempts_requestException_const (msg : String) (t : Nat) :
    ∀ (r a : Nat),
      runAttempts (fun _ => .requestException msg) t a r
        = ⟨"Error: Network request failed. " ++ msg, r + 1, expDelays a r⟩ := by
  intro r
  induction r with
  | zero => intro a; simp [runAttempts, expDelays]
  | succ n ih => intro a; simp [runAttempts, expDelays, ih (a + 1)]

/-- C2: if the underlying HTTP request times out on the first two attempts
and succeeds on the third, then `_call_perplexity_api` with `max_retries=2`
returns the successful response content (not an error value), performs
exactly 3 attempts, and sleeps 2^0 = 1 second before the second attempt and
2^1 = 2 seconds before the third. -/
theorem timeout_twice_then_success_retries (content : String) (t : Nat) :
    callPerplexityApi (some "test-key")
      (fun a => if a < 2 then AttemptOutcome.timeout
                else .success (.dict [some content] [] [])) t 2
      = ⟨content, 3, [1, 2]⟩ := by
  simp only [callPerplexityApi]
  rw [if_neg (by decide)]
  norm_num [runAttempts, parseBody, allUrls, uniqueUrls]

/-- C5: a call whose underlying HTTP request yields a 401 status on its
first attempt performs exactly one attempt — it never retries and never
sleeps — and returns the invalid-credential failure; the same no-retry
behavior holds for a 400 (bad request) status.  `rest` is the (irrelevant)
behavior of the network on the attempts that are never made. -/
theorem no_retry_on_401_and_400 (rest rest' : Nat → AttemptOutcome)
    (k : String) (t m t' m' : Nat) (hk : k ≠ "") :
    callPerplexityApi (some k)
      (fun a => if a = 0 then .httpError 401 else rest a) t m
      = ⟨"Error: Invalid API key. Please check your PERPLEXITY_API_KEY.", 1, []⟩
    ∧ callPerplexityApi (some k)
      (fun a => if a = 0 then .httpError 400 else rest' a) t' m'
      = ⟨"Error: Bad request to API. Check your query format.", 1, []⟩ := by
  constructor
  · simp only [callPerplexityApi]
    rw [if_neg hk]
    cases m <;> simp [runAttempts]
  · simp only [callPerplexityApi]
    rw [if_neg hk]
    cases m' <;> simp [runAttempts]

/-- Witness for C5 at concrete inputs. -/
theorem no_retry_on_401_and_400_witness :
    callPerplexityApi (some "key")
      (fun a => if a = 0 then .httpError 401 else .httpError 401) 30 2
      = ⟨"Error: Invalid API key. Please check your PERPLEXITY_API_KEY.", 1, []⟩
    ∧ callPerplexityApi (some "key")
      (fun a => if a = 0 then .httpError 400 else .httpError 400) 30 2
      = ⟨"Error: Bad request to API. Check your query format.", 1, []⟩ :=
  no_retry_on_401_and_400 (fun _ => .httpError 401) (fun _ => .httpError 400)
    "key" 30 2 30 2 (by decide)

/-- C6 counterexample: the claim says a transient transport error that is
not a timeout nor a 429/401/400 is retried exactly once (2 attempts) with a
short fixed delay.  On a persistent HTTP 500 with the default
`max_retries=2` the code makes 3 attempts with delays [1, 1], and on a
persistent non-HTTP transport error it makes 3 attempts with exponential
delays [1, 2] — not a single fixed-delay retry. -/
theorem transient_retry_once_counterexample :
    (callPerplexityApi (some "key") (fun _ => .httpError 500) 30 2).attempts = 3
    ∧ (callPerplexityApi (some "key") (fun _ => .httpError 500) 30 2).delays = [1, 1]
    ∧ (callPerplexityApi (some "key")
        (fun _ => .requestException "connection reset") 30 2).attempts = 3
    ∧ (callPerplexityApi (some "key")
        (fun _ => .requestException "connection reset") 30 2).delays = [1, 2]
    ∧ ¬ (3 = 2) := by
  refine ⟨rfl, rfl, rfl, rfl, by decide⟩

/-- C6 amended: on persistent transient transport errors the caller retries
up to `max_retries` additional times — for HTTP errors with a status other
than 429/401/400 it waits a fixed 1 second before each retry, and for
non-HTTP transport errors it waits `2 ^ attempt` seconds before attempt
`attempt + 1` — and then gives up with a failure. -/
theorem transient_retry_amended (s : Nat) (msg k : String) (t m : Nat)
    (hk : k ≠ "") (h429 : s ≠ 429) (h401 : s ≠ 401) (h400 : s ≠ 400) :
    callPerplexityApi (some k) (fun _ => .httpError s) t m
      = ⟨"Error: HTTP error " ++ toString s ++ ". Please try again.",
         m + 1, List.replicate m 1⟩
    ∧ callPerplexityApi (some k) (fun _ => .requestException msg) t m
      = ⟨"Error: Network request failed. " ++ msg, m + 1, expDelays 0 m⟩ := by
  constructor
  · simp only [callPerplexityApi]
    rw [if_neg hk]
    exact runAttempts_httpError_const s t h429 h401 h400 m 0
  · simp only [callPerplexityApi]
    rw [if_neg hk]
    exact runAttempts_requestException_const msg t m 0

/-- C1: for every sequence of artifact-path registrations (each the
lock-guarded check-then-append on the shared registry list), the final
registry contains each distinct path exactly once, in the order each path
was first registered (it equals the spec-side `firstRegistrationOrder`,
is duplicate-free, and holds exactly the registered paths), and
registering an already-present path leaves the registry unchanged. -/
theorem registry_first_registration_order (ps : List String) :
    registerAll [] ps = firstRegistrationOrder ps
    ∧ (registerAll [] ps).Nodup
    ∧ (∀ p, p ∈ registerAll [] ps ↔ p ∈ ps)
    ∧ ∀ (l : List String) (p : String), p ∈ l → register l p = l := by
  refine ⟨registerAll_nil_eq ps, ?_, ?_, register_mem⟩
  · rw [registerAll_nil_eq]
    exact nodup_firstRegistrationOrder ps
  · intro p
    rw [registerAll_nil_eq]
    exact mem_firstRegistrationOrder p ps

/-- Witness for C1 at a concrete registration sequence. -/
theorem registry_first_registration_order_witness :
    registerAll [] ["a.md", "b.md", "a.md"]
      = firstRegistrationOrder ["a.md", "b.md", "a.md"]
    ∧ register ["a.md", "b.md"] "a.md" = ["a.md", "b.md"] :=
  ⟨(registry_first_registration_order ["a.md", "b.md", "a.md"]).1,
   (registry_first_registration_order []).2.2.2 ["a.md", "b.md"] "a.md" (by simp)⟩

/-- C3: every retrievable input path's full content appears in the combined
document preceded by the visible section delimiter; every unretrievable
path is represented by a placeholder section naming it; the output file is
fully overwritten with the combined document (not appended to); and running
`combine_reports` twice with the same output path leaves that path in the
registry exactly once. -/
theorem combine_reports_spec (fs : FileSystem) (paths : List String)
    (out : String) (reg : List String) :
    (∀ p c, p ∈ paths → fs p = some c →
      ∃ pre post, combinedContent fs paths = pre ++ ("\n\n---\n\n" ++ c) ++ post)
    ∧ (∀ p, p ∈ paths → fs p = none →
      ∃ pre post, combinedContent fs paths
        = pre ++ ("\n\n---\n\n# Missing file: " ++ p ++ "\n") ++ post)
    ∧ (combine_reports fs paths out reg).1 out = some (combinedContent fs paths)
    ∧ (out ∉ reg →
        ((combine_reports (combine_reports fs paths out reg).1 paths out
            (combine_reports fs paths out reg).2.1).2.1).count out = 1) := by
  refine ⟨?_, ?_, ?_, ?_⟩
  · intro p c hp hc
    have hsec : sectionFor fs p = "\n\n---\n\n" ++ c := by
      simp [sectionFor, hc]
    obtain ⟨pre, post, h⟩ := sectionFor_occurs fs p paths hp
    exact ⟨pre, post, by rw [h, hsec]⟩
  · intro p hp hc
    have hsec : sectionFor fs p = "\n\n---\n\n# Missing file: " ++ p ++ "\n" := by
      simp [sectionFor, hc]
    obtain ⟨pre, post, h⟩ := sectionFor_occurs fs p paths hp
    exact ⟨pre, post, by rw [h, hsec]⟩
  · simp [combine_reports]
  · intro hout
    have h1 : (combine_reports fs paths out reg).2.1 = reg ++ [out] := by
      simp [combine_reports, register, hout]
    have h2 : (combine_reports (combine_reports fs paths out reg).1 paths out
        (reg ++ [out])).2.1 = reg ++ [out] := by
      simp [combine_reports, register]
    rw [h1, h2, List.count_append]
    rw [List.count_eq_zero.2 hout]
    simp

/-- Witness for C3: one present file, one missing file, fresh registry. -/
theorem combine_reports_spec_witness :
    (∃ pre post,
      combinedContent
        (fun p => if p = "reports/competition_report.md" then some "A-content" else none)
        ["reports/competition_report.md", "reports/market_report.md"]
        = pre ++ ("\n\n---\n\n" ++ "A-content") ++ post)
    ∧ (∃ pre post,
      combinedContent
        (fun p => if p = "reports/competition_report.md" then some "A-content" else none)
        ["reports/competition_report.md", "reports/market_report.md"]
        = pre ++ ("\n\n---\n\n# Missing file: " ++ "reports/market_report.md" ++ "\n") ++ post)
    ∧ ((combine_reports
        ((combine_reports
          (fun p => if p = "reports/competition_report.md" then some "A-content" else none)
          ["reports/competition_report.md", "reports/market_report.md"]
          "reports/final_report.md" []).1)
        ["reports/competition_report.md", "reports/market_report.md"]
        "reports/final_report.md"
        ((combine_reports
          (fun p => if p = "reports/competition_report.md" then some "A-content" else none)
          ["reports/competition_report.md", "reports/market_report.md"]
          "reports/final_report.md" []).2.1)).2.1).count "reports/final_report.md" = 1 := by
  refine ⟨?_, ?_, ?_⟩
  · exact (combine_reports_spec _ _ "reports/final_report.md" []).1
      "reports/competition_report.md" "A-content" (by simp) (by simp)
  · exact (combine_reports_spec _ _ "reports/final_report.md" []).2.1
      "reports/market_report.md" (by simp) (by simp)
  · exact (combine_reports_spec _ _ "reports/final_report.md" []).2.2.2 (by simp)

/-- Witness for the amended C6 at concrete inputs. -/
theorem transient_retry_amended_witness :
    callPerplexityApi (some "key") (fun _ => .httpError 500) 30 2
      = ⟨"Error: HTTP error " ++ toString 500 ++ ". Please try again.",
         3, List.replicate 2 1⟩
    ∧ callPerplexityApi (some "key") (fun _ => .requestException "boom") 30 2
      = ⟨"Error: Network request failed. " ++ "boom", 3, expDelays 0 2⟩ :=
  transient_retry_amended 500 "boom" "key" 30 2
    (by decide) (by decide) (by decide) (by decide)

/-- The `unique_urls` loop computes exactly the first-occurrence subsequence. -/
theorem uniqueUrls_eq (l : List String) :
    uniqueUrls l = firstRegistrationOrder l :=
  registerAll_nil_eq l

/-- C7: the sources list appended to the returned text is built preferring
direct URL identifiers from `citations` over `search_results` entries
(search results are consulted only when the citations yield no URL),
contains no duplicate URLs, preserves first-seen order (it is a
subsequence of the collected URL stream), has length at most 5, and is
exactly what the call appends after the primary text payload. -/
theorem citation_extraction_spec (cs : List Citation) (rs : List (Option String)) :
    ((uniqueUrls (allUrls cs rs)).take 5).Nodup
    ∧ ((uniqueUrls (allUrls cs rs)).take 5).length ≤ 5
    ∧ ((uniqueUrls (allUrls cs rs)).take 5).Sublist (allUrls cs rs)
    ∧ (cs.filterMap Citation.urlOf ≠ [] →
        allUrls cs rs = cs.filterMap Citation.urlOf)
    ∧ (cs.filterMap Citation.urlOf = [] → rs ≠ [] →
        allUrls cs rs = rs.filterMap searchResultUrl)
    ∧ ∀ (c : String) (choicesRest : List (Option String)),
        allUrls cs rs ≠ [] →
        parseBody (.dict (some c :: choicesRest) cs rs)
          = c ++ formattedCitations ((uniqueUrls (allUrls cs rs)).take 5) := by
  refine ⟨?_, ?_, ?_, ?_, ?_, ?_⟩
  · refine (List.take_sublist 5 _).nodup ?_
    rw [uniqueUrls_eq]
    exact nodup_firstRegistrationOrder _
  · exact List.length_take_le 5 _
  · refine (List.take_sublist 5 _).trans ?_
    rw [uniqueUrls_eq]
    exact firstRegistrationOrder_sublist _
  · intro h
    simp [allUrls, h]
  · intro h hrs
    simp [allUrls, h, hrs]
  · intro c choicesRest h
    simp only [parseBody]
    rw [if_pos h]
    simp

/-- Witness for C7 at a concrete response shape (duplicate citation URL,
an object citation, and a search result that must be ignored). -/
theorem citation_extraction_spec_witness :
    ((uniqueUrls (allUrls
        [.str "https://a", .obj (some "https://b"), .str "https://a"]
        [some "https://c"])).take 5).Nodup
    ∧ allUrls [.str "https://a", .obj (some "https://b"), .str "https://a"]
        [some "https://c"]
      = List.filterMap Citation.urlOf
          [.str "https://a", .obj (some "https://b"), .str "https://a"]
    ∧ parseBody (.dict [some "text"]
        [.str "https://a", .obj (some "https://b"), .str "https://a"]
        [some "https://c"])
      = "text" ++ formattedCitations ((uniqueUrls (allUrls
          [.str "https://a", .obj (some "https://b"), .str "https://a"]
          [some "https://c"])).take 5) := by
  refine ⟨(citation_extraction_spec _ _).1, ?_, ?_⟩
  · exact (citation_extraction_spec _ _).2.2.2.1 (by decide)
  · exact (citation_extraction_spec _ _).2.2.2.2.2 "text" [] (by decide)

/-- C4 counterexample: the consumer operation of the event bus,
`EventQueue.get`, takes no timeout parameter; invoked on an empty bus it
returns no value at all — the call stays suspended however long no event is
published, and no distinguished keepalive signal exists in the queue's
code.  This refutes the claim that a receive with timeout `T` on an empty
bus returns a keepalive signal. -/
theorem receive_keepalive_counterexample :
    EventQueue.get ⟨some 0, []⟩ = none := rfl

/-- C4 amended: `EventQueue.get` has no timeout parameter; on an empty bus
the call remains blocked (returns no value) regardless of how long no event
is published, and on a non-empty bus it returns the FIFO head.  The
timeout/keepalive behavior the spec describes is not implemented by the
queue's consumer operation. -/
theorem receive_blocks_on_empty (i : Option Nat) (e : QEvent) (es : List QEvent) :
    EventQueue.get ⟨i, []⟩ = none
    ∧ EventQueue.get ⟨i, e :: es⟩ = some (e, ⟨i, es⟩) :=
  ⟨rfl, rfl⟩

/-- C9 counterexample: with `GOOGLE_PLACES_API_KEY` unset, invoking the
competition worker with a well-formed two-task list makes
`CompetitionAgent.__init__` raise `ValueError`, and `run_competition_agent`
(which wraps the construction in no `try`) propagates it to its caller —
an escaping exception, not a typed failure value in the return channel. -/
theorem config_fault_counterexample :
    run_competition_agent ⟨none, none⟩ ["coffee shop", "Juja, Kiambu County"] []
      = .error "GOOGLE_PLACES_API_KEY environment variable not set." := rfl

/-- C9 amended: a missing-credential fault is returned as a typed failure
on the market worker path — `run_market_agent` returns an explanatory error
string, and `_call_perplexity_api` returns its error string before making
any attempt — but the competition worker raises `ValueError` from its
constructor, which `run_competition_agent` propagates to its caller. -/
theorem config_fault_amended (env : Env) (tasks : List String)
    (o : Nat → AttemptOutcome) (t m : Nat) (r : String) (stream : List Nat)
    (hp : env.perplexityApiKey = none) (hg : env.googlePlacesApiKey = none)
    (hlen : tasks.length = 2) :
    run_market_agent env tasks r
      = "Error: Failed to run market analysis. PERPLEXITY_API_KEY environment variable not set."
    ∧ callPerplexityApi env.perplexityApiKey o t m
      = ⟨"Error: PERPLEXITY_API_KEY is not set in the environment.", 0, []⟩
    ∧ run_competition_agent env tasks stream
      = .error "GOOGLE_PLACES_API_KEY environment variable not set." := by
  refine ⟨?_, ?_, ?_⟩
  · simp [run_market_agent, hlen, hp, envSet]
  · rw [hp]
    rfl
  · simp [run_competition_agent, hlen, hg, envSet]

/-- Witness for the amended C9 at a concrete unconfigured environment. -/
theorem config_fault_amended_witness :
    run_market_agent ⟨none, none⟩ ["coffee shop", "Juja"] "unused"
      = "Error: Failed to run market analysis. PERPLEXITY_API_KEY environment variable not set."
    ∧ callPerplexityApi (Env.perplexityApiKey ⟨none, none⟩) (fun _ => .timeout) 30 2
      = ⟨"Error: PERPLEXITY_API_KEY is not set in the environment.", 0, []⟩
    ∧ run_competition_agent ⟨none, none⟩ ["coffee shop", "Juja"] []
      = .error "GOOGLE_PLACES_API_KEY environment variable not set." :=
  config_fault_amended ⟨none, none⟩ ["coffee shop", "Juja"]
    (fun _ => .timeout) 30 2 "unused" [] rfl rfl rfl

/-- A sequence of `put`s through any handles appends the events to the one
shared queue in enqueue order. -/
theorem putAll_queue (es : List QEvent) :
    ∀ s : EQState, (EventQueue.putAll s es).queue = s.queue ++ es := by
  induction es with
  | nil =>
    intro s
    simp [EventQueue.putAll]
  | cons e es ih =>
    intro s
    have h : EventQueue.putAll s (e :: es) = EventQueue.putAll (EventQueue.put s e) es := rfl
    rw [h, ih (EventQueue.put s e)]
    simp [EventQueue.put]

/-- C10: `EventQueue` is a process-wide singleton — constructing it a
second time returns the same instance and leaves the class-level state
unchanged — and all handles share one FIFO queue: events enqueued through
any handle are appended in enqueue order, and `get` returns the oldest
queued event. -/
theorem eventqueue_singleton_fifo (s : EQState) (es : List QEvent) :
    (EventQueue.new (EventQueue.new s).2).1 = (EventQueue.new s).1
    ∧ (EventQueue.new (EventQueue.new s).2).2 = (EventQueue.new s).2
    ∧ (EventQueue.putAll s es).queue = s.queue ++ es
    ∧ ∀ e rest, s.queue = e :: rest →
        EventQueue.get s = some (e, { s with queue := rest }) := by
  refine ⟨?_, ?_, putAll_queue es s, ?_⟩
  · cases hs : s.inst <;> simp [EventQueue.new, hs]
  · cases hs : s.inst <;> simp [EventQueue.new, hs]
  · intro e rest h
    obtain ⟨i, q⟩ := s
    simp only at h
    subst h
    rfl

/-- Witness for C10: two events enqueued on the singleton's fresh queue are
received back in enqueue order. -/
theorem eventqueue_singleton_fifo_witness :
    (EventQueue.putAll ⟨some 0, []⟩ [10, 20]).queue = ([] : List QEvent) ++ [10, 20]
    ∧ EventQueue.get ⟨some 0, [10, 20]⟩ = some (10, ⟨some 0, [20]⟩) :=
  ⟨(eventqueue_singleton_fifo ⟨some 0, []⟩ [10, 20]).2.2.1,
   (eventqueue_singleton_fifo ⟨some 0, [10, 20]⟩ []).2.2.2 10 [20] rfl⟩


/-- The uuid counter after a worker's progress events. -/
theorem workerProgressEvents_snd (a : String) :
    ∀ (k ctr : Nat), (workerProgressEvents a k ctr).2 = ctr + 2 * k := by
  intro k
  induction k with
  | zero =>
    intro ctr
    simp [workerProgressEvents]
  | succ n ih =>
    intro ctr
    simp [workerProgressEvents, update_work_progress_event, ih (ctr + 2)]
    omega

/-- Every event a worker emits through `update_work_progress` is a
`tool_call` whose traceId was drawn from the uuid supply at or after the
counter the worker started with. -/
theorem workerProgressEvents_mem (a : String) :
    ∀ (k ctr : Nat) (e : MEvent), e ∈ (workerProgressEvents a k ctr).1 →
      e.eventType = "tool_call" ∧ ctr ≤ e.traceId := by
  intro k
  induction k with
  | zero =>
    intro ctr e h
    simp [workerProgressEvents] at h
  | succ n ih =>
    intro ctr e h
    simp only [workerProgressEvents, update_work_progress_event, List.mem_cons] at h
    rcases h with h | h
    · subst h
      exact ⟨rfl, Nat.le_refl _⟩
    · have h2 := ih (ctr + 2) e h
      exact ⟨h2.1, by omega⟩

/-- The uuid counter after one `stream_and_capture_report`. -/
theorem stream_and_capture_report_snd (tid : Nat) (a : String) (k ctr : Nat) :
    (stream_and_capture_report tid a k ctr).2 = ctr + 1 + 2 * k := by
  simp [stream_and_capture_report, workerProgressEvents_snd]

/-- Classification of the events of one wrapped worker run: the wrapper's
`thought_start`/`thought_end` carry the shared traceId; every worker
progress event is a `tool_call` whose traceId is a fresh uuid drawn after
the wrapper's span allocation. -/
theorem stream_and_capture_report_mem (tid : Nat) (a : String) (k ctr : Nat)
    (e : MEvent) (h : e ∈ (stream_and_capture_report tid a k ctr).1) :
    ((e.eventType = "thought_start" ∨ e.eventType = "thought_end")
        ∧ e.traceId = tid)
    ∨ (e.eventType = "tool_call" ∧ ctr < e.traceId) := by
  simp only [stream_and_capture_report, List.mem_cons, List.mem_append,
    List.mem_singleton] at h
  rcases h with (h | h) | h | h
  · subst h
    exact Or.inl ⟨Or.inl rfl, rfl⟩
  · have h2 := workerProgressEvents_mem a k (ctr + 1) e h
    exact Or.inr ⟨h2.1, by omega⟩
  · subst h
    exact Or.inl ⟨Or.inr rfl, rfl⟩
  · exact absurd h (List.not_mem_nil e)

/-- Classification of all events of the dispatch loop, for any starting
counter strictly above the shared traceId. -/
theorem runCategories_mem (tid : Nat) :
    ∀ (todo : List (String × List String × Nat)) (ctr : Nat) (e : MEvent),
      tid < ctr → e ∈ (runCategories tid todo ctr).1 →
      ((e.eventType = "thought_start" ∨ e.eventType = "thought_end")
          ∧ e.traceId = tid)
      ∨ (e.eventType = "tool_call" ∧ tid < e.traceId) := by
  intro todo
  induction todo with
  | nil =>
    intro ctr e _ h
    simp [runCategories] at h
  | cons cat rest ih =>
    intro ctr e hlt h
    obtain ⟨agentName, tasks, k⟩ := cat
    by_cases ht : tasks = []
    · rw [show runCategories tid ((agentName, tasks, k) :: rest) ctr
          = runCategories tid rest ctr by simp [runCategories, ht]] at h
      exact ih ctr e hlt h
    · simp only [runCategories, if_neg ht, List.mem_append] at h
      rcases h with h | h
      · rcases stream_and_capture_report_mem tid agentName k ctr e h with h1 | h1
        · exact Or.inl h1
        · exact Or.inr ⟨h1.1, by omega⟩
      · refine ih _ e ?_ h
        rw [stream_and_capture_report_snd]
        omega

/-- C8 counterexample: in a plan with one non-empty category whose worker
emits one progress event, that progress event's traceId is a fresh uuid,
not the shared trace identifier generated at the start of
`execute_research_plan` — so not every event of the invocation carries the
shared traceId. -/
theorem shared_trace_id_counterexample :
    ¬ ∀ e ∈ (execute_research_plan [("CompetitionAgent", ["x"], 1)] 0).2.1,
        e.traceId = (execute_research_plan [("CompetitionAgent", ["x"], 1)] 0).1 := by
  decide

/-- C8 amended: during one `execute_research_plan` invocation, the
planner-wrapper `thought_start`/`thought_end` events carry the shared trace
identifier generated at the start of the invocation, but every progress
event emitted by a worker agent through `update_work_progress` carries its
own freshly generated traceId, which differs from the shared one. -/
theorem shared_trace_id_amended (todo : List (String × List String × Nat))
    (ctr : Nat) :
    ∀ e ∈ (execute_research_plan todo ctr).2.1,
      ((e.eventType = "thought_start" ∨ e.eventType = "thought_end") →
          e.traceId = (execute_research_plan todo ctr).1)
      ∧ (e.eventType = "tool_call" →
          e.traceId ≠ (execute_research_plan todo ctr).1) := by
  intro e he
  have h1 : (execute_research_plan todo ctr).1 = ctr := rfl
  have h2 : (execute_research_plan todo ctr).2.1
      = (runCategories ctr todo (ctr + 1)).1 := rfl
  rw [h2] at he
  rw [h1]
  rcases runCategories_mem ctr todo (ctr + 1) e (by omega) he with h | h
  · refine ⟨fun _ => h.2, fun htc => ?_⟩
    rcases h.1 with h3 | h3
    · have : ("thought_start" : String) = "tool_call" := h3.symm.trans htc
      exact absurd this (by decide)
    · have : ("thought_end" : String) = "tool_call" := h3.symm.trans htc
      exact absurd this (by decide)
  · refine ⟨fun hse => ?_, fun _ => by omega⟩
    rcases hse with h3 | h3
    · have : ("tool_call" : String) = "thought_start" := h.1.symm.trans h3
      exact absurd this (by decide)
    · have : ("tool_call" : String) = "thought_end" := h.1.symm.trans h3
      exact absurd this (by decide)

/-- Witness for the amended C8: the wrapper's `thought_start` event of a
concrete plan carries the shared trace id, and the worker's progress event
does not. -/
theorem shared_trace_id_amended_witness :
    (⟨"CompetitionAgent", "thought_start", 0, 1, some "planner"⟩ : MEvent).traceId
      = (execute_research_plan [("CompetitionAgent", ["x"], 1)] 0).1
    ∧ (⟨"CompetitionAgent", "tool_call", 2, 3, some "planner"⟩ : MEvent).traceId
      ≠ (execute_research_plan [("CompetitionAgent", ["x"], 1)] 0).1 :=
  ⟨(shared_trace_id_amended [("CompetitionAgent", ["x"], 1)] 0
      ⟨"CompetitionAgent", "thought_start", 0, 1, some "planner"⟩
      (by decide)).1 (Or.inl rfl),
   (shared_trace_id_amended [("CompetitionAgent", ["x"], 1)] 0
      ⟨"CompetitionAgent", "tool_call", 2, 3, some "planner"⟩
      (by decide)).2 rfl⟩


end Scout
